import Mathlib

/-!
Verification of the Market Data Acquisition & Live Price Monitoring subsystem
of the stock-champion-chartist dashboard.

The embedding models, from `src/services/geminiService.ts` and `src/App.tsx`:
  * the proxy relay `yahooFinanceFetch` (ordered intermediaries, 30 s timeout,
    first structurally valid payload wins, last error surfaced),
  * the primary provider `fetchMarketDataFromYahoo` / `fetchLivePriceFromYahoo`
    (null-row filtering of parallel arrays, CSV projection),
  * the secondary provider `fetchMarketDataFromFinnhub` /
    `fetchLivePriceFromFinnhub` (symbol mapping, `.NS` exclusion, no filtering),
  * the orchestrators `fetchMarketData` / `fetchLivePrice`
    (primary-then-secondary fallback), and
  * the polling loop of `App.tsx` (consecutive-failure counter, halt at 5).

JavaScript numbers are modelled as rationals (`ℚ`), nullable values as
`Option`, promise rejection as `Except String`.  Network input that the code
receives from `fetch` is an explicit parameter (an outcome per attempted
call), so each function is a pure function of the upstream behaviour.
-/

set_option maxHeartbeats 1000000
set_option maxRecDepth 10000
set_option linter.unusedVariables false

/-- A single-quote character, used to reproduce the exact error-message text of
the source (which quotes symbol names). -/
def squote : String := String.mk [Char.ofNat 39]

/-- JavaScript `toFixed(2)` for a non-negative rational: round to the integer
number of hundredths nearest to `q` (ties upward, as in the ECMAScript spec),
then print `whole.frac` with a two-digit fraction.  The rounded count of
hundredths `⌊100·q + 1/2⌋` equals `⌊(200·num + den) / (2·den)⌋` and is
computed directly on the numerator and denominator with integer floor
division, so that it evaluates inside the kernel. -/
def toFixed2Core (q : ℚ) : String :=
  let n : ℤ := Int.fdiv (200 * q.num + q.den) (2 * q.den)
  let whole : ℤ := n / 100
  let frac : ℤ := n % 100
  toString whole ++ "." ++ (if frac < 10 then "0" else "") ++ toString frac

/-- JavaScript `x.toFixed(2)`: the sign is taken first, then the magnitude is
rounded (ECMAScript Number.prototype.toFixed). -/
def toFixed2 (q : ℚ) : String :=
  if q < 0 then "-" ++ toFixed2Core (-q) else toFixed2Core q

/-- `formatPrice` from geminiService.ts: a finite number renders with two
decimals, anything else renders as `N/A`.  (At the modelled call sites the
argument is a number or null/undefined, never a string.) -/
def formatPrice (value : Option ℚ) : String :=
  match value with
  | some num => toFixed2 num
  | none => "N/A"

/-- Days-to-civil-date conversion (proleptic Gregorian), as performed by
`new Date(ms).toISOString()`: returns (year, month, day). -/
def civilFromDays (z : ℤ) : ℤ × ℤ × ℤ :=
  let z' := z + 719468
  let era : ℤ := Int.fdiv z' 146097
  let doe : ℤ := z' - era * 146097
  let yoe : ℤ := (doe - doe / 1460 + doe / 36524 - doe / 146096) / 365
  let y : ℤ := yoe + era * 400
  let doy : ℤ := doe - (365 * yoe + yoe / 4 - yoe / 100)
  let mp : ℤ := (5 * doy + 2) / 153
  let d : ℤ := doy - (153 * mp + 2) / 5 + 1
  let m : ℤ := mp + (if mp < 10 then 3 else -9)
  (y + (if m ≤ 2 then 1 else 0), m, d)

/-- Zero-pad a non-negative integer to two digits. -/
def pad2 (n : ℤ) : String :=
  (if n < 10 then "0" else "") ++ toString n

/-- `new Date(ts * 1000).toISOString().split('T')[0]` for an epoch-seconds
timestamp: the UTC calendar date `yyyy-mm-dd`. -/
def toIsoDate (ts : ℤ) : String :=
  let days := Int.fdiv ts 86400
  let ymd := civilFromDays days
  toString ymd.1 ++ "-" ++ pad2 ymd.2.1 ++ "-" ++ pad2 ymd.2.2

/-- `CandlestickData` from types.ts.  `open` is a Lean keyword, hence the
trailing underscore on the field name. -/
structure CandlestickData where
  time : ℤ
  open_ : ℚ
  high : ℚ
  low : ℚ
  close : ℚ
deriving Repr, DecidableEq

/-- `VolumeData` from types.ts. -/
structure VolumeData where
  time : ℤ
  value : ℤ
  color : String
deriving Repr, DecidableEq

/-- `ChartData` from types.ts. -/
structure ChartData where
  candlestickData : List CandlestickData
  volumeData : List VolumeData
deriving Repr, DecidableEq

/-- `MarketDataPayload` from geminiService.ts. -/
structure MarketDataPayload where
  csv : String
  chartData : ChartData
deriving Repr, DecidableEq

/-- Bar colour of an up bar (`close >= open`), from both providers. -/
def upColor : String := "rgba(40, 167, 69, 0.5)"

/-- Bar colour of a down bar, from both providers. -/
def downColor : String := "rgba(220, 53, 69, 0.5)"

/-- The CSV header emitted by both providers. -/
def csvHeader : String := "Date,Open,High,Low,Close,Volume\n"

/-! ## Live price monitor (App.tsx)

State of one polling session: the interval handle (modelled as a Boolean
`intervalActive`, true while `priceUpdateInterval.current` is non-null), the
`pollingFailureCount` ref, the `isPollingHalted` React state, and the
`livePrice` React state.  `haltedEmits` counts the `setIsPollingHalted(true)`
calls, to state that the halted flag is emitted exactly once. -/

structure MonitorState where
  intervalActive : Bool
  pollingFailureCount : Nat
  isPollingHalted : Bool
  haltedEmits : Nat
  livePrice : Option String
deriving Repr, DecidableEq

/-- `stopPolling` from App.tsx: when an interval is registered, clear it, zero
the failure counter, and (when `halted`) set the halted flag; otherwise do
nothing. -/
def stopPolling (halted : Bool) (s : MonitorState) : MonitorState :=
  if s.intervalActive then
    { s with
      intervalActive := false
      pollingFailureCount := 0
      isPollingHalted := if halted then true else s.isPollingHalted
      haltedEmits := if halted then s.haltedEmits + 1 else s.haltedEmits }
  else s

/-- One tick of the `setInterval` callback in `handleAnalysisRequest`:
`fetchLivePrice` resolved to `newPrice`.  A truthy price updates `livePrice`
and resets the counter; a null price increments the counter and, at 5,
invokes `stopPolling true`.  Once the interval is cleared no tick fires, so
on an inactive state the tick is the identity. -/
def pollTick (newPrice : Option String) (s : MonitorState) : MonitorState :=
  if s.intervalActive then
    match newPrice with
    | some p => { s with livePrice := some p, pollingFailureCount := 0 }
    | none =>
      let s' := { s with pollingFailureCount := s.pollingFailureCount + 1 }
      if 5 ≤ s'.pollingFailureCount then stopPolling true s' else s'
  else s

/-- The state right after `handleAnalysisRequest` registers the interval:
fresh counter, halted flag cleared, no live price yet. -/
def startPollingState : MonitorState :=
  { intervalActive := true
    pollingFailureCount := 0
    isPollingHalted := false
    haltedEmits := 0
    livePrice := none }

/-- Run a session: fold the per-tick quote outcomes over the state. -/
def runTicks (outcomes : List (Option String)) (s : MonitorState) : MonitorState :=
  outcomes.foldl (fun st o => pollTick o st) s

/-- Invariant of a polling session: while the interval is registered the
halted flag has never been emitted; once it is cleared the flag has been
emitted at most once. -/
def monitorInv (s : MonitorState) : Prop :=
  (s.intervalActive = true ∧ s.haltedEmits = 0) ∨
  (s.intervalActive = false ∧ s.haltedEmits ≤ 1)

theorem pollTick_monitorInv (o : Option String) (s : MonitorState)
    (h : monitorInv s) : monitorInv (pollTick o s) := by
  rcases h with ⟨ha, he⟩ | ⟨ha, he⟩
  · cases o with
    | some p => left; simp [pollTick, ha, he]
    | none =>
      by_cases h5 : 5 ≤ s.pollingFailureCount + 1
      · right; simp [pollTick, ha, he, h5, stopPolling]
      · left; simp [pollTick, ha, he, h5]
  · have hid : pollTick o s = s := by simp [pollTick, ha]
    rw [hid]; right; exact ⟨ha, he⟩

theorem runTicks_monitorInv (outcomes : List (Option String)) (s : MonitorState)
    (h : monitorInv s) : monitorInv (runTicks outcomes s) := by
  induction outcomes generalizing s with
  | nil => exact h
  | cons o rest ih => exact ih _ (pollTick_monitorInv o s h)

/-- C1: on each tick of the live price monitor, a successful quote resets the
consecutive-failure counter to 0 and records the price; a failed quote
increments the counter; the tick that brings the counter to 5 clears the
interval, sets the halted flag, and emits it; no tick acts once the interval
is cleared; and over any whole session started by `handleAnalysisRequest`,
the halted flag is emitted at most once. -/
theorem monitor_halts_after_five_failures :
    (∀ (s : MonitorState) (p : String), s.intervalActive = true →
      (pollTick (some p) s).pollingFailureCount = 0 ∧
      (pollTick (some p) s).livePrice = some p) ∧
    (∀ s : MonitorState, s.intervalActive = true → s.pollingFailureCount + 1 < 5 →
      pollTick none s = { s with pollingFailureCount := s.pollingFailureCount + 1 }) ∧
    (∀ s : MonitorState, s.intervalActive = true → s.pollingFailureCount = 4 →
      (pollTick none s).intervalActive = false ∧
      (pollTick none s).isPollingHalted = true ∧
      (pollTick none s).haltedEmits = s.haltedEmits + 1 ∧
      (pollTick none s).pollingFailureCount = 0) ∧
    (∀ (s : MonitorState) (o : Option String), s.intervalActive = false →
      pollTick o s = s) ∧
    (∀ outcomes : List (Option String),
      (runTicks outcomes startPollingState).haltedEmits ≤ 1) := by
  refine ⟨?_, ?_, ?_, ?_, ?_⟩
  · intro s p ha; simp [pollTick, ha]
  · intro s ha hlt
    simp [pollTick, ha, Nat.not_le.mpr hlt]
  · intro s ha h4
    simp [pollTick, ha, h4, stopPolling]
  · intro s o ha; simp [pollTick, ha]
  · intro outcomes
    have h := runTicks_monitorInv outcomes startPollingState (by left; exact ⟨rfl, rfl⟩)
    rcases h with ⟨_, he⟩ | ⟨_, he⟩
    · omega
    · exact he

/-- Witness for C1 at a concrete state: from an active session with four
consecutive failures, a fifth failed tick clears the interval, sets the
halted flag, emits it once, and zeroes the counter. -/
theorem monitor_halts_after_five_failures_witness :
    (pollTick none ⟨true, 4, false, 0, none⟩).intervalActive = false ∧
    (pollTick none ⟨true, 4, false, 0, none⟩).isPollingHalted = true ∧
    (pollTick none ⟨true, 4, false, 0, none⟩).haltedEmits = 0 + 1 ∧
    (pollTick none ⟨true, 4, false, 0, none⟩).pollingFailureCount = 0 :=
  monitor_halts_after_five_failures.2.2.1 ⟨true, 4, false, 0, none⟩ rfl rfl

/-! ## Proxy relay (`yahooFinanceFetch`)

Each CORS intermediary is a prefix plus an encoding flag.  The behaviour of
the network for one call is an `AttemptOutcome` per intermediary: the parsed
payload on success, or one of the failure shapes the source distinguishes
(non-2xx status, an error payload inside a 200 response, a missing result
envelope, an abort of the 30-second timeout, or a rejected fetch). -/

/-- One entry of `PROXIES`.  The source names the first field `prefix`, a Lean
keyword, so it is called `base` here. -/
structure Proxy where
  base : String
  encode : Bool
deriving Repr, DecidableEq

/-- The fixed intermediary list `PROXIES` from geminiService.ts, in priority
order. -/
def PROXIES : List Proxy :=
  [⟨"https://corsproxy.io/?", false⟩,
   ⟨"https://cors.eu.org/", false⟩,
   ⟨"https://thingproxy.freeboard.io/fetch/", false⟩,
   ⟨"https://api.allorigins.win/raw?url=", true⟩]

/-- Outcome of one fetch attempt through one intermediary. -/
inductive AttemptOutcome (α : Type) where
  | ok (data : α)
  | httpError (status : Nat)
  | apiError (description : String)
  | malformed
  | timeout
  | netFail (msg : String)
deriving Repr, DecidableEq

/-- Whether an attempt outcome is a structurally valid payload. -/
def isOkOutcome {α : Type} : AttemptOutcome α → Bool
  | .ok _ => true
  | _ => false

/-- The `lastError` value recorded for a failed attempt through proxy `p`, as
assigned in the catch block of `yahooFinanceFetch` (an `AbortError` is
replaced by the timeout-specific message). -/
def attemptErrMsg {α : Type} (p : Proxy) : AttemptOutcome α → Option String
  | .ok _ => none
  | .httpError status =>
      some ("Yahoo Finance request via " ++ p.base ++ " failed with status "
        ++ toString status)
  | .apiError description => some ("Yahoo Finance API error: " ++ description)
  | .malformed =>
      some ("Yahoo Finance response via " ++ p.base ++ " was empty or malformed.")
  | .timeout => some "Request timed out. The data provider is not responding."
  | .netFail msg => some msg

/-- Record of one attempt actually issued: which intermediary, and the timeout
armed for it (`setTimeout(() => controller.abort(), 30000)`). -/
structure Attempt where
  base : String
  timeoutMs : Nat
deriving Repr, DecidableEq

/-- The loop body of `yahooFinanceFetch`: walk the intermediaries, return the
first structurally valid payload, remember the last error, and throw it (or
the fallback text) when every intermediary failed.  The second component is
the list of attempts actually issued. -/
def relayGo {α : Type} :
    List (Proxy × AttemptOutcome α) → Option String → Except String α × List Attempt
  | [], lastError =>
      (.error (lastError.getD "All Yahoo Finance fetch attempts failed."), [])
  | (p, out) :: rest, lastError =>
      match out with
      | .ok data => (.ok data, [⟨p.base, 30000⟩])
      | o =>
          let r := relayGo rest (attemptErrMsg p o)
          (r.1, ⟨p.base, 30000⟩ :: r.2)

/-- `yahooFinanceFetch url` under network behaviour `env` (one outcome per
intermediary, in `PROXIES` order). -/
def yahooFinanceFetch {α : Type} (url : String) (env : List (AttemptOutcome α)) :
    Except String α × List Attempt :=
  relayGo (PROXIES.zip env) none

theorem attemptErrMsg_isSome {α : Type} (p : Proxy) (o : AttemptOutcome α)
    (h : isOkOutcome o = false) : ∃ m, attemptErrMsg p o = some m := by
  cases o <;> simp_all [isOkOutcome, attemptErrMsg]

theorem relayGo_cons_ok {α : Type} (p : Proxy) (d : α)
    (rest : List (Proxy × AttemptOutcome α)) (lastError : Option String) :
    relayGo ((p, .ok d) :: rest) lastError = (.ok d, [⟨p.base, 30000⟩]) := rfl

theorem relayGo_cons_fail {α : Type} (p : Proxy) (o : AttemptOutcome α)
    (rest : List (Proxy × AttemptOutcome α)) (lastError : Option String)
    (h : isOkOutcome o = false) :
    relayGo ((p, o) :: rest) lastError =
      ((relayGo rest (attemptErrMsg p o)).1,
        ⟨p.base, 30000⟩ :: (relayGo rest (attemptErrMsg p o)).2) := by
  cases o <;> simp_all [isOkOutcome, relayGo]

theorem relayGo_trace {α : Type} (attempts : List (Proxy × AttemptOutcome α))
    (lastError : Option String) :
    ∃ n, (relayGo attempts lastError).2 =
      ((attempts.map Prod.fst).take n).map (fun p => (⟨p.base, 30000⟩ : Attempt)) := by
  induction attempts generalizing lastError with
  | nil => exact ⟨0, rfl⟩
  | cons pe rest ih =>
    obtain ⟨p, o⟩ := pe
    by_cases hok : isOkOutcome o = true
    · cases o <;> simp [isOkOutcome] at hok
      exact ⟨1, by simp [relayGo]⟩
    · rw [relayGo_cons_fail p o rest lastError (by simpa using hok)]
      obtain ⟨n, hn⟩ := ih (attemptErrMsg p o)
      exact ⟨n + 1, by simp [hn]⟩

theorem relayGo_all_fail {α : Type} (attempts : List (Proxy × AttemptOutcome α))
    (lastError : Option String)
    (hfail : ∀ pe ∈ attempts, isOkOutcome pe.2 = false) :
    ∀ (p : Proxy) (o : AttemptOutcome α) (m : String),
      attempts.getLast? = some (p, o) → attemptErrMsg p o = some m →
      (relayGo attempts lastError).1 = .error m := by
  induction attempts generalizing lastError with
  | nil => intro p o m h _; simp at h
  | cons pe rest ih =>
    obtain ⟨p0, o0⟩ := pe
    intro p o m hlast hm
    have h0 : isOkOutcome o0 = false := hfail (p0, o0) (by simp)
    rw [relayGo_cons_fail p0 o0 rest lastError h0]
    cases rest with
    | nil =>
      simp at hlast
      obtain ⟨hp, ho⟩ := hlast
      subst hp; subst ho
      simp [relayGo, hm]
    | cons pe1 rest1 =>
      have hlast' : (pe1 :: rest1).getLast? = some (p, o) := by
        rw [← hlast]; exact (List.getLast?_cons_cons ..).symm
      exact ih (attemptErrMsg p0 o0)
        (fun x hx => hfail x (List.mem_cons_of_mem _ hx)) p o m hlast' hm

/-- C7: for every target URL, `yahooFinanceFetch` tries the intermediaries
strictly in `PROXIES` order arming a 30-second timeout per attempt (the
attempt trace is always an initial segment of `PROXIES`, each with
`timeoutMs = 30000`); the first structurally valid payload is returned
without trying the remaining intermediaries; and when all four attempts fail
the thrown error is the last observed error, which for a timeout/abort is the
timeout-specific message. -/
theorem relay_order_and_last_error {α : Type} (url : String)
    (o1 o2 o3 o4 : AttemptOutcome α) :
    (∃ n, (yahooFinanceFetch url [o1, o2, o3, o4]).2 =
      (PROXIES.take n).map (fun p => (⟨p.base, 30000⟩ : Attempt))) ∧
    (∀ d : α, o1 = .ok d →
      (yahooFinanceFetch url [o1, o2, o3, o4]).1 = .ok d ∧
      (yahooFinanceFetch url [o1, o2, o3, o4]).2 =
        (PROXIES.take 1).map (fun p => (⟨p.base, 30000⟩ : Attempt))) ∧
    (∀ d : α, isOkOutcome o1 = false → o2 = .ok d →
      (yahooFinanceFetch url [o1, o2, o3, o4]).1 = .ok d ∧
      (yahooFinanceFetch url [o1, o2, o3, o4]).2 =
        (PROXIES.take 2).map (fun p => (⟨p.base, 30000⟩ : Attempt))) ∧
    (∀ d : α, isOkOutcome o1 = false → isOkOutcome o2 = false → o3 = .ok d →
      (yahooFinanceFetch url [o1, o2, o3, o4]).1 = .ok d ∧
      (yahooFinanceFetch url [o1, o2, o3, o4]).2 =
        (PROXIES.take 3).map (fun p => (⟨p.base, 30000⟩ : Attempt))) ∧
    (∀ d : α, isOkOutcome o1 = false → isOkOutcome o2 = false →
      isOkOutcome o3 = false → o4 = .ok d →
      (yahooFinanceFetch url [o1, o2, o3, o4]).1 = .ok d ∧
      (yahooFinanceFetch url [o1, o2, o3, o4]).2 =
        PROXIES.map (fun p => (⟨p.base, 30000⟩ : Attempt))) ∧
    (isOkOutcome o1 = false → isOkOutcome o2 = false → isOkOutcome o3 = false →
      isOkOutcome o4 = false →
      ∃ m, attemptErrMsg (⟨"https://api.allorigins.win/raw?url=", true⟩ : Proxy) o4
            = some m ∧
        (yahooFinanceFetch url [o1, o2, o3, o4]).1 = .error m) ∧
    (isOkOutcome o1 = false → isOkOutcome o2 = false → isOkOutcome o3 = false →
      o4 = .timeout →
      (yahooFinanceFetch url [o1, o2, o3, o4]).1 =
        .error "Request timed out. The data provider is not responding.") := by
  have hzip : PROXIES.zip [o1, o2, o3, o4] =
      [(⟨"https://corsproxy.io/?", false⟩, o1),
       (⟨"https://cors.eu.org/", false⟩, o2),
       (⟨"https://thingproxy.freeboard.io/fetch/", false⟩, o3),
       (⟨"https://api.allorigins.win/raw?url=", true⟩, o4)] := rfl
  have hfail : isOkOutcome o1 = false → isOkOutcome o2 = false →
      isOkOutcome o3 = false → isOkOutcome o4 = false →
      ∀ pe ∈ PROXIES.zip [o1, o2, o3, o4], isOkOutcome pe.2 = false := by
    intro h1 h2 h3 h4 pe hpe
    rw [hzip] at hpe
    simp at hpe
    rcases hpe with h | h | h | h <;> subst h <;> assumption
  refine ⟨?_, ?_, ?_, ?_, ?_, ?_, ?_⟩
  · obtain ⟨n, hn⟩ := relayGo_trace (PROXIES.zip [o1, o2, o3, o4]) none
    refine ⟨n, ?_⟩
    rw [show (yahooFinanceFetch url [o1, o2, o3, o4]).2 =
      (relayGo (PROXIES.zip [o1, o2, o3, o4]) none).2 from rfl, hn,
      List.map_fst_zip _ _ (by simp [PROXIES])]
  · intro d h1; subst h1
    exact ⟨rfl, rfl⟩
  · intro d h1 h2; subst h2
    cases o1 <;> simp_all [yahooFinanceFetch, PROXIES, relayGo, isOkOutcome,
      attemptErrMsg]
  · intro d h1 h2 h3; subst h3
    cases o1 <;> cases o2 <;>
      simp_all [yahooFinanceFetch, PROXIES, relayGo, isOkOutcome, attemptErrMsg]
  · intro d h1 h2 h3 h4; subst h4
    cases o1 <;> cases o2 <;> cases o3 <;>
      simp_all [yahooFinanceFetch, PROXIES, relayGo, isOkOutcome, attemptErrMsg]
  · intro h1 h2 h3 h4
    obtain ⟨m, hm⟩ :=
      attemptErrMsg_isSome (⟨"https://api.allorigins.win/raw?url=", true⟩ : Proxy) o4 h4
    refine ⟨m, hm, ?_⟩
    exact relayGo_all_fail _ none (hfail h1 h2 h3 h4) _ _ _ (by rw [hzip]; rfl) hm
  · intro h1 h2 h3 h4; subst h4
    exact relayGo_all_fail _ none (hfail h1 h2 h3 rfl)
      ⟨"https://api.allorigins.win/raw?url=", true⟩ .timeout
      "Request timed out. The data provider is not responding."
      (by rw [hzip]; rfl) rfl

/-- Witness for C7 at concrete outcomes: three HTTP 500 failures followed by a
timeout on the last intermediary surface the timeout-specific message. -/
theorem relay_order_and_last_error_witness :
    (yahooFinanceFetch "https://query1.finance.yahoo.com/v8/finance/chart/AAPL"
        ([.httpError 500, .httpError 502, .malformed, .timeout]
          : List (AttemptOutcome Nat))).1 =
      .error "Request timed out. The data provider is not responding." :=
  (relay_order_and_last_error
      "https://query1.finance.yahoo.com/v8/finance/chart/AAPL"
      (.httpError 500 : AttemptOutcome Nat) (.httpError 502) .malformed
      .timeout).2.2.2.2.2.2 rfl rfl rfl rfl

/-! ## Primary provider (`fetchMarketDataFromYahoo`, `fetchLivePriceFromYahoo`)

The chart payload `data.chart.result[0]` carries a `timestamp` array and
parallel `indicators.quote[0]` arrays, each entry possibly null. -/

/-- `indicators.quote[0]` of the Yahoo chart payload. -/
structure YahooQuoteArrays where
  open_ : List (Option ℚ)
  high : List (Option ℚ)
  low : List (Option ℚ)
  close : List (Option ℚ)
  volume : List (Option ℤ)
deriving Repr, DecidableEq

/-- `data.chart.result[0]` of the Yahoo chart payload. -/
structure YahooResult where
  timestamp : List (Option ℤ)
  quote : YahooQuoteArrays
deriving Repr, DecidableEq

/-- One retained row of the Yahoo series (timestamp and all four OHLC fields
non-null; `volume` already defaulted to 0 when null). -/
structure YahooRow where
  time : ℤ
  open_ : ℚ
  high : ℚ
  low : ℚ
  close : ℚ
  volume : ℤ
deriving Repr, DecidableEq

/-- The null test of the Yahoo row mapper: a row exists exactly when the
timestamp and all four OHLC entries at this index are non-null; a null volume
becomes 0. -/
def rowOfEntries (t : Option ℤ) (o h l c : Option ℚ) (v : Option ℤ) : Option YahooRow :=
  match t, o, h, l, c with
  | some ts, some o', some h', some l', some c' => some ⟨ts, o', h', l', c', v.getD 0⟩
  | _, _, _, _, _ => none

/-- The row the Yahoo mapper produces at index `i` (JavaScript indexes the
parallel arrays with the index of the `timestamp` entry). -/
def yahooRowAt (r : YahooResult) (i : Nat) : Option YahooRow :=
  rowOfEntries (r.timestamp.getD i none) (r.quote.open_.getD i none)
    (r.quote.high.getD i none) (r.quote.low.getD i none)
    (r.quote.close.getD i none) (r.quote.volume.getD i none)

/-- The retained rows, in upstream order: `timestamp.map(...)` followed by
`.filter(Boolean)`. -/
def yahooRows (r : YahooResult) : List YahooRow :=
  (List.range r.timestamp.length).filterMap (yahooRowAt r)

/-- One CSV data row of the primary provider:
`date,open,high,low,close,volume` with two-decimal prices. -/
def yahooCsvRow (row : YahooRow) : String :=
  toIsoDate row.time ++ "," ++ toFixed2 row.open_ ++ "," ++ toFixed2 row.high
    ++ "," ++ toFixed2 row.low ++ "," ++ toFixed2 row.close ++ ","
    ++ toString row.volume

/-- The CSV data rows of the primary provider, one per retained row. -/
def yahooCsvRows (r : YahooResult) : List String :=
  (yahooRows r).map yahooCsvRow

/-- The candle pushed for a retained row. -/
def rowCandle (row : YahooRow) : CandlestickData :=
  ⟨row.time, row.open_, row.high, row.low, row.close⟩

/-- The volume point pushed for a retained row (`close >= open` decides the
bar colour). -/
def rowVolume (row : YahooRow) : VolumeData :=
  ⟨row.time, row.volume, if row.close ≥ row.open_ then upColor else downColor⟩

/-- The `timeframe → (range, interval)` lookup of `fetchMarketDataFromYahoo`;
unrecognized timeframes fall back to the Daily mapping. -/
def yahooRangeInterval (timeframe : String) : String × String :=
  match timeframe with
  | "Intraday" => ("5d", "15m")
  | "Weekly" => ("5y", "1wk")
  | "Monthly" => ("max", "1mo")
  | _ => ("2y", "1d")

/-- Upstream behaviour seen by `fetchMarketDataFromYahoo`: the relay threw,
or the payload lacks `result[0]`/`timestamp`/`open` (all three checks throw
the same `NoDataFound` message), or a structurally present result. -/
inductive YahooSeriesIn where
  | relayFail (msg : String)
  | noData
  | ok (r : YahooResult)
deriving Repr, DecidableEq

/-- `fetchMarketDataFromYahoo` from geminiService.ts. -/
def fetchMarketDataFromYahoo (symbol timeframe : String) (inp : YahooSeriesIn) :
    Except String MarketDataPayload :=
  match inp with
  | .relayFail msg => .error msg
  | .noData => .error "Could not find time series data in Yahoo Finance response."
  | .ok r =>
      let rows := yahooRows r
      .ok { csv := csvHeader ++ String.intercalate "\n" (rows.map yahooCsvRow)
            chartData :=
              { candlestickData := rows.map rowCandle
                volumeData := rows.map rowVolume } }

/-- Upstream behaviour seen by `fetchLivePriceFromYahoo`: the relay threw, or
a payload whose `chart.result[0].meta.regularMarketPrice` is the given
optional number. -/
inductive YahooQuoteIn where
  | relayFail (msg : String)
  | ok (regularMarketPrice : Option ℚ)
deriving Repr, DecidableEq

/-- `fetchLivePriceFromYahoo` from geminiService.ts: a missing or falsy
(zero) price throws; otherwise the two-decimal string is returned. -/
def fetchLivePriceFromYahoo (symbol : String) (inp : YahooQuoteIn) :
    Except String String :=
  match inp with
  | .relayFail msg => .error msg
  | .ok price =>
      match price with
      | none => .error ("No live price found for " ++ symbol
          ++ " in Yahoo Finance response.")
      | some p =>
          if p = 0 then
            .error ("No live price found for " ++ symbol
              ++ " in Yahoo Finance response.")
          else .ok (formatPrice (some p))

/-! ### Row filtering: auxiliary recursion and lemmas -/

/-- `yahooRowAt` generalized over six explicit parallel arrays. -/
def rowAtLists (ts : List (Option ℤ)) (os hs ls cs : List (Option ℚ))
    (vs : List (Option ℤ)) (i : Nat) : Option YahooRow :=
  rowOfEntries (ts.getD i none) (os.getD i none) (hs.getD i none)
    (ls.getD i none) (cs.getD i none) (vs.getD i none)

/-- Head-wise recursion computing the retained rows, used to reason about the
index-based `yahooRows` by structural induction. -/
def yahooRowsAux (ts : List (Option ℤ)) (os hs ls cs : List (Option ℚ))
    (vs : List (Option ℤ)) : List YahooRow :=
  match ts with
  | [] => []
  | t :: ts' =>
      match rowOfEntries t (os.headD none) (hs.headD none) (ls.headD none)
          (cs.headD none) (vs.headD none) with
      | some row => row :: yahooRowsAux ts' os.tail hs.tail ls.tail cs.tail vs.tail
      | none => yahooRowsAux ts' os.tail hs.tail ls.tail cs.tail vs.tail

theorem getD_succ_tail {α : Type} (l : List α) (i : Nat) (d : α) :
    l.getD (i + 1) d = l.tail.getD i d := by
  cases l <;> simp [List.getD]

theorem getD_zero_headD {α : Type} (l : List α) (d : α) :
    l.getD 0 d = l.headD d := by
  cases l <;> simp [List.getD]

theorem rowsAux_eq (ts : List (Option ℤ)) :
    ∀ (os hs ls cs : List (Option ℚ)) (vs : List (Option ℤ)),
      (List.range ts.length).filterMap (rowAtLists ts os hs ls cs vs) =
        yahooRowsAux ts os hs ls cs vs := by
  induction ts with
  | nil => intro os hs ls cs vs; rfl
  | cons t ts ih =>
    intro os hs ls cs vs
    have hshift : (rowAtLists (t :: ts) os hs ls cs vs) ∘ Nat.succ =
        rowAtLists ts os.tail hs.tail ls.tail cs.tail vs.tail := by
      funext i
      simp [rowAtLists, Function.comp, getD_succ_tail]
    have h0 : rowAtLists (t :: ts) os hs ls cs vs 0 =
        rowOfEntries t (os.headD none) (hs.headD none) (ls.headD none)
          (cs.headD none) (vs.headD none) := by
      simp only [rowAtLists, getD_zero_headD, List.headD_cons]
    rw [List.length_cons, List.range_succ_eq_map, List.filterMap_cons,
      List.filterMap_map, hshift, ih, h0]
    cases hrow : rowOfEntries t (os.headD none) (hs.headD none) (ls.headD none)
        (cs.headD none) (vs.headD none) <;> simp only [yahooRowsAux, hrow]

theorem yahooRows_eq_aux (r : YahooResult) :
    yahooRows r = yahooRowsAux r.timestamp r.quote.open_ r.quote.high
      r.quote.low r.quote.close r.quote.volume :=
  rowsAux_eq r.timestamp r.quote.open_ r.quote.high r.quote.low r.quote.close
    r.quote.volume

theorem rowOfEntries_time {t : Option ℤ} {o h l c : Option ℚ} {v : Option ℤ}
    {row : YahooRow} (hrow : rowOfEntries t o h l c v = some row) :
    t = some row.time := by
  cases t <;> cases o <;> cases h <;> cases l <;> cases c <;>
    simp_all [rowOfEntries] <;> rw [← hrow]

theorem rowsAux_time_sublist (ts : List (Option ℤ)) :
    ∀ (os hs ls cs : List (Option ℚ)) (vs : List (Option ℤ)),
      List.Sublist ((yahooRowsAux ts os hs ls cs vs).map YahooRow.time) (ts.filterMap id) := by
  induction ts with
  | nil => intro os hs ls cs vs; simp [yahooRowsAux]
  | cons t ts ih =>
    intro os hs ls cs vs
    cases hrow : rowOfEntries t (os.headD none) (hs.headD none) (ls.headD none)
        (cs.headD none) (vs.headD none) with
    | some row =>
      have hts : yahooRowsAux (t :: ts) os hs ls cs vs =
          row :: yahooRowsAux ts os.tail hs.tail ls.tail cs.tail vs.tail := by
        simp only [yahooRowsAux, hrow]
      have ht := rowOfEntries_time hrow
      rw [hts, ht]
      simp only [List.map_cons, List.filterMap_cons, id]
      exact List.Sublist.cons₂ _ (ih os.tail hs.tail ls.tail cs.tail vs.tail)
    | none =>
      have hts : yahooRowsAux (t :: ts) os hs ls cs vs =
          yahooRowsAux ts os.tail hs.tail ls.tail cs.tail vs.tail := by
        simp only [yahooRowsAux, hrow]
      rw [hts]
      cases t with
      | none => simpa using ih os.tail hs.tail ls.tail cs.tail vs.tail
      | some x =>
        simp only [List.filterMap_cons, id]
        exact List.Sublist.cons _ (ih os.tail hs.tail ls.tail cs.tail vs.tail)

theorem yahooRows_time_sublist (r : YahooResult) :
    List.Sublist ((yahooRows r).map YahooRow.time) (r.timestamp.filterMap id) := by
  rw [yahooRows_eq_aux]
  exact rowsAux_time_sublist r.timestamp r.quote.open_ r.quote.high r.quote.low
    r.quote.close r.quote.volume

theorem length_filterMap_eq_filter {α β : Type} (f : α → Option β) (l : List α) :
    (l.filterMap f).length = (l.filter (fun a => (f a).isSome)).length := by
  induction l with
  | nil => rfl
  | cons a l ih =>
    cases hfa : f a <;> simp [List.filterMap_cons, List.filter_cons, hfa, ih]

theorem rowOfEntries_isSome (t : Option ℤ) (o h l c : Option ℚ) (v : Option ℤ) :
    (rowOfEntries t o h l c v).isSome ↔
      (t.isSome ∧ o.isSome ∧ h.isSome ∧ l.isSome ∧ c.isSome) := by
  cases t <;> cases o <;> cases h <;> cases l <;> cases c <;>
    simp [rowOfEntries]

theorem rowOfEntries_null_volume {t : Option ℤ} {o h l c : Option ℚ}
    {row : YahooRow} (hrow : rowOfEntries t o h l c none = some row) :
    row.volume = 0 := by
  cases t <;> cases o <;> cases h <;> cases l <;> cases c <;>
    simp_all [rowOfEntries] <;> simp [← hrow]

/-- C5: for every primary-provider payload of parallel arrays possibly
containing nulls, a row at index `i` is retained iff the timestamp and all
four OHLC values at `i` are non-null; a null volume at a retained index
becomes 0; and the output carries exactly one candle, one volume point and
one CSV data row per retained index, the CSV being the header followed by the
data rows. -/
theorem yahoo_null_rows_filtered (symbol timeframe : String) (r : YahooResult) :
    ∃ payload,
      fetchMarketDataFromYahoo symbol timeframe (.ok r) = .ok payload ∧
      (∀ i, i < r.timestamp.length →
        ((yahooRowAt r i).isSome ↔
          ((r.timestamp.getD i none).isSome ∧ (r.quote.open_.getD i none).isSome ∧
           (r.quote.high.getD i none).isSome ∧ (r.quote.low.getD i none).isSome ∧
           (r.quote.close.getD i none).isSome))) ∧
      (∀ i row, yahooRowAt r i = some row → r.quote.volume.getD i none = none →
        row.volume = 0) ∧
      (yahooRows r).length =
        ((List.range r.timestamp.length).filter
          (fun i => (yahooRowAt r i).isSome)).length ∧
      payload.chartData.candlestickData.length = (yahooRows r).length ∧
      payload.chartData.volumeData.length = (yahooRows r).length ∧
      (yahooCsvRows r).length = (yahooRows r).length ∧
      payload.csv = csvHeader ++ String.intercalate "\n" (yahooCsvRows r) := by
  refine ⟨_, rfl, ?_, ?_, ?_, ?_, ?_, ?_, rfl⟩
  · intro i hi
    exact rowOfEntries_isSome (r.timestamp.getD i none) (r.quote.open_.getD i none)
      (r.quote.high.getD i none) (r.quote.low.getD i none)
      (r.quote.close.getD i none) (r.quote.volume.getD i none)
  · intro i row hrow hv
    rw [yahooRowAt, hv] at hrow
    exact rowOfEntries_null_volume hrow
  · exact length_filterMap_eq_filter (yahooRowAt r) (List.range r.timestamp.length)
  · simp [fetchMarketDataFromYahoo]
  · simp [fetchMarketDataFromYahoo]
  · simp [yahooCsvRows]

/-- The scenario payload of the spec: three fully valid rows and one row with
a null close (the second row also has a null volume). -/
def exampleYahooResult : YahooResult :=
  { timestamp := [some 86400, some 172800, some 259200, some 345600]
    quote :=
      { open_ := [some 10, some 11, some 12, some 13]
        high := [some 11, some 12, some 13, some 14]
        low := [some 9, some 10, some 11, some 12]
        close := [some (mkRat 21 2), some (mkRat 23 2), some (mkRat 25 2), none]
        volume := [some 1000, none, some 3000, some 4000] } }

/-- Witness for C5: on the spec scenario (3 valid rows, 1 null close), the
series has exactly 3 candles and the CSV projection exactly 3 data rows. -/
theorem yahoo_null_rows_filtered_witness :
    (yahooRows exampleYahooResult).length = 3 ∧
    (yahooCsvRows exampleYahooResult).length = 3 := by
  obtain ⟨payload, hp, _, _, hcount, _, _, hcsv, _⟩ :=
    yahoo_null_rows_filtered "ABC" "Daily" exampleYahooResult
  refine ⟨?_, ?_⟩
  · rw [hcount]; rfl
  · rw [hcsv, hcount]; rfl

/-! ## Secondary provider (`fetchMarketDataFromFinnhub`, `fetchLivePriceFromFinnhub`) -/

/-- JavaScript `s.endsWith(suff)`.  (Defined over the character list so that
it evaluates inside the kernel.) -/
def strEndsWith (s suff : String) : Bool :=
  decide (s.data.drop (s.data.length - suff.data.length) = suff.data)

/-- The module-level Finnhub credential hard-coded in geminiService.ts. -/
def FINNHUB_API_KEY : String := "d4758fhr01qh8nnb7glgd4758fhr01qh8nnb7gm0"

/-- `mapSymbolForFinnhub`: the fixed substitution table from primary-source
index/commodity identifiers to Finnhub-recognized tracking instruments;
unknown identifiers pass through unchanged. -/
def mapSymbolForFinnhub (symbol : String) : String :=
  match symbol with
  | "^GSPC" => "SPY"
  | "^DJI" => "DIA"
  | "^NDX" => "QQQ"
  | "^FTSE" => "EWU"
  | "^GDAXI" => "EWG"
  | "^N225" => "EWJ"
  | "^HSI" => "EWH"
  | "^NSEI" => "INDA"
  | "GC=F" => "GLD"
  | "SI=F" => "SLV"
  | "CL=F" => "USO"
  | "NG=F" => "UNG"
  | "HG=F" => "CPER"
  | _ => symbol

/-- The `timeframe → resolution` arm of the Finnhub switch (the `from`
timestamp is wall-clock dependent and feeds only the request URL). -/
def finnhubResolution (timeframe : String) : String :=
  match timeframe with
  | "Intraday" => "15"
  | "Weekly" => "W"
  | "Monthly" => "M"
  | _ => "D"

/-- The parsed JSON body of a Finnhub candle response: status sentinel `s`
and parallel arrays. -/
structure FinnhubCandles where
  s : String
  t : List ℤ
  o : List (Option ℚ)
  h : List (Option ℚ)
  l : List (Option ℚ)
  c : List (Option ℚ)
  v : List (Option ℤ)
deriving Repr, DecidableEq

/-- Upstream behaviour seen by the Finnhub candle call once it is issued. -/
inductive FinnhubSeriesIn where
  | netFail (msg : String)
  | httpError (status : Nat)
  | ok (data : FinnhubCandles)
deriving Repr, DecidableEq

/-- The error of the `.NS` exclusion branch of `fetchMarketDataFromFinnhub`. -/
def indianStockMsg : String :=
  "Primary data source failed for Indian stock; Finnhub fallback is not supported for this asset on the current plan."

/-- The error thrown when the module credential is empty. -/
def finnhubKeyMissingSeriesMsg : String :=
  "FINNHUB_API_KEY environment variable not set. Cannot use Finnhub as a fallback."

/-- The `no_data` / missing-array error of the Finnhub series path. -/
def noSeriesMsg (finnhubSymbol : String) : String :=
  "Could not find time series data for " ++ squote ++ finnhubSymbol ++ squote
    ++ " in Finnhub response."

/-- The TypeError JavaScript raises when `toFixed` is called on a null OHLC
entry while building a CSV row. -/
def nullToFixedError : String :=
  "TypeError: Cannot read properties of null (reading " ++ squote ++ "toFixed"
    ++ squote ++ ")"

/-- One iteration of the Finnhub `t.map(...)` body: pushes a candle and a
volume point and renders the CSV row.  A null OHLC entry makes the row
rendering throw (`o[i].toFixed(2)` on null), so the iteration is fallible. -/
def finnhubRowE (d : FinnhubCandles) (i : Nat) :
    Except String (CandlestickData × VolumeData × String) :=
  match d.o.getD i none, d.h.getD i none, d.l.getD i none, d.c.getD i none with
  | some o, some h, some l, some c =>
      let ts := d.t.getD i 0
      .ok (⟨ts, o, h, l, c⟩,
           ⟨ts, (d.v.getD i none).getD 0, if c ≥ o then upColor else downColor⟩,
           toIsoDate ts ++ "," ++ toFixed2 o ++ "," ++ toFixed2 h ++ ","
             ++ toFixed2 l ++ "," ++ toFixed2 c ++ ","
             ++ toString ((d.v.getD i none).getD 0))
  | _, _, _, _ => .error nullToFixedError

/-- The whole `t.map(...)` loop: stops at the first throwing row. -/
def finnhubRowsGo (d : FinnhubCandles) :
    List Nat → Except String (List (CandlestickData × VolumeData × String))
  | [] => .ok []
  | i :: is =>
      match finnhubRowE d i with
      | .error e => .error e
      | .ok x =>
          match finnhubRowsGo d is with
          | .error e => .error e
          | .ok rest => .ok (x :: rest)

/-- The rows of the Finnhub series: one iteration per `t` element, no null
filtering. -/
def finnhubRows (d : FinnhubCandles) :
    Except String (List (CandlestickData × VolumeData × String)) :=
  finnhubRowsGo d (List.range d.t.length)

/-- `fetchMarketDataFromFinnhub` from geminiService.ts.  The second component
counts the network calls issued (the claim about the `.NS` exclusion is about
this count staying 0). -/
def fetchMarketDataFromFinnhub (apiKey symbol timeframe : String)
    (inp : FinnhubSeriesIn) : Except String MarketDataPayload × Nat :=
  if apiKey = "" then (.error finnhubKeyMissingSeriesMsg, 0)
  else if strEndsWith symbol ".NS" then (.error indianStockMsg, 0)
  else
    let finnhubSymbol := mapSymbolForFinnhub symbol
    match inp with
    | .netFail msg => (.error msg, 1)
    | .httpError status =>
        (.error ("Finnhub request for " ++ finnhubSymbol ++ " failed with status "
          ++ toString status), 1)
    | .ok d =>
        if d.s = "no_data" ∨ d.t.length = 0 then
          (.error (noSeriesMsg finnhubSymbol), 1)
        else
          match finnhubRows d with
          | .error e => (.error e, 1)
          | .ok rows =>
              (.ok { csv := csvHeader
                       ++ String.intercalate "\n" (rows.map (fun x => x.2.2))
                     chartData :=
                       { candlestickData := rows.map (fun x => x.1)
                         volumeData := rows.map (fun x => x.2.1) } }, 1)

/-- Upstream behaviour seen by the Finnhub quote call once it is issued. -/
inductive FinnhubQuoteIn where
  | netFail (msg : String)
  | httpError (status : Nat)
  | ok (c : Option ℚ)
deriving Repr, DecidableEq

/-- The missing-quote error of the Finnhub quote path (note: it quotes the
original symbol, not the mapped one). -/
def noQuoteMsg (symbol : String) : String :=
  "No live price found for " ++ symbol ++ " in Finnhub response."

/-- `fetchLivePriceFromFinnhub` from geminiService.ts: a missing credential
or a `.NS` symbol returns null (no quote) WITHOUT issuing the network call;
otherwise the quote endpoint is called and a missing/zero price throws.  The
second component counts the network calls issued. -/
def fetchLivePriceFromFinnhub (apiKey symbol : String) (inp : FinnhubQuoteIn) :
    Except String (Option String) × Nat :=
  if apiKey = "" then (.ok none, 0)
  else if strEndsWith symbol ".NS" then (.ok none, 0)
  else
    match inp with
    | .netFail msg => (.error msg, 1)
    | .httpError status =>
        (.error ("Finnhub quote request failed with status " ++ toString status), 1)
    | .ok price =>
        match price with
        | none => (.error (noQuoteMsg symbol), 1)
        | some p =>
            if p = 0 then (.error (noQuoteMsg symbol), 1)
            else (.ok (some (formatPrice (some p))), 1)

/-! ### Lemmas about the Finnhub row loop -/

theorem finnhubRowE_ok_isSome {d : FinnhubCandles} {i : Nat}
    {x : CandlestickData × VolumeData × String} (hx : finnhubRowE d i = .ok x) :
    (d.o.getD i none).isSome ∧ (d.h.getD i none).isSome ∧
    (d.l.getD i none).isSome ∧ (d.c.getD i none).isSome := by
  cases ho : d.o.getD i none <;> cases hh : d.h.getD i none <;>
    cases hl : d.l.getD i none <;> cases hc : d.c.getD i none <;>
    simp only [finnhubRowE, ho, hh, hl, hc] at hx <;> cases hx <;>
    simp [ho, hh, hl, hc]

theorem finnhubRowE_times {d : FinnhubCandles} {i : Nat}
    {x : CandlestickData × VolumeData × String} (hx : finnhubRowE d i = .ok x) :
    x.1.time = d.t.getD i 0 ∧ x.2.1.time = d.t.getD i 0 := by
  cases ho : d.o.getD i none <;> cases hh : d.h.getD i none <;>
    cases hl : d.l.getD i none <;> cases hc : d.c.getD i none <;>
    simp only [finnhubRowE, ho, hh, hl, hc] at hx <;> cases hx <;>
    exact ⟨rfl, rfl⟩

theorem finnhubRowsGo_ok_length {d : FinnhubCandles} {is : List Nat}
    {rows : List (CandlestickData × VolumeData × String)}
    (h : finnhubRowsGo d is = .ok rows) : rows.length = is.length := by
  induction is generalizing rows with
  | nil =>
    simp only [finnhubRowsGo] at h
    cases h; rfl
  | cons i is ih =>
    simp only [finnhubRowsGo] at h
    cases hx : finnhubRowE d i with
    | error e => rw [hx] at h; cases h
    | ok x =>
      rw [hx] at h
      cases hr : finnhubRowsGo d is with
      | error e => rw [hr] at h; cases h
      | ok rest =>
        rw [hr] at h
        cases h
        simp [ih hr]

theorem finnhubRowsGo_ok_forall {d : FinnhubCandles} {is : List Nat}
    {rows : List (CandlestickData × VolumeData × String)}
    (h : finnhubRowsGo d is = .ok rows) :
    ∀ i ∈ is, ∃ x, finnhubRowE d i = .ok x := by
  induction is generalizing rows with
  | nil => intro i hi; simp at hi
  | cons j is ih =>
    intro i hi
    simp only [finnhubRowsGo] at h
    cases hx : finnhubRowE d j with
    | error e => rw [hx] at h; cases h
    | ok x =>
      rw [hx] at h
      cases hr : finnhubRowsGo d is with
      | error e => rw [hr] at h; cases h
      | ok rest =>
        rcases List.mem_cons.mp hi with rfl | hi'
        · exact ⟨x, hx⟩
        · exact ih hr i hi'

theorem finnhubRowsGo_ok_times {d : FinnhubCandles} {is : List Nat}
    {rows : List (CandlestickData × VolumeData × String)}
    (h : finnhubRowsGo d is = .ok rows) :
    rows.map (fun x => x.1.time) = is.map (fun i => d.t.getD i 0) ∧
    rows.map (fun x => x.2.1.time) = is.map (fun i => d.t.getD i 0) := by
  induction is generalizing rows with
  | nil =>
    simp only [finnhubRowsGo] at h
    cases h; exact ⟨rfl, rfl⟩
  | cons i is ih =>
    simp only [finnhubRowsGo] at h
    cases hx : finnhubRowE d i with
    | error e => rw [hx] at h; cases h
    | ok x =>
      rw [hx] at h
      cases hr : finnhubRowsGo d is with
      | error e => rw [hr] at h; cases h
      | ok rest =>
        rw [hr] at h
        cases h
        obtain ⟨h1, h2⟩ := finnhubRowE_times hx
        obtain ⟨ih1, ih2⟩ := ih hr
        simp [h1, h2, ih1, ih2]

theorem map_getD_range {α : Type} (d0 : α) (l : List α) :
    (List.range l.length).map (fun i => l.getD i d0) = l := by
  induction l with
  | nil => rfl
  | cons a l ih =>
    have hcomp : ((fun i => (a :: l).getD i d0) ∘ Nat.succ) =
        (fun i => l.getD i d0) := funext fun i => by simp [getD_succ_tail]
    rw [List.length_cons, List.range_succ_eq_map, List.map_cons, List.map_map,
      hcomp, ih]
    rfl

/-- C10 (amended): the Finnhub series path applies no null-row filtering —
every successful fetch returns exactly one candle and one volume point per
element of the upstream timestamp array; but a null OHLC entry is not passed
through: it makes the whole fetch throw while rendering the CSV row, so on
success every OHLC entry within range is non-null. -/
theorem finnhub_no_filtering (apiKey symbol timeframe : String)
    (d : FinnhubCandles) (payload : MarketDataPayload)
    (hok : (fetchMarketDataFromFinnhub apiKey symbol timeframe (.ok d)).1
      = .ok payload) :
    payload.chartData.candlestickData.length = d.t.length ∧
    payload.chartData.volumeData.length = d.t.length ∧
    (∀ i, i < d.t.length →
      (d.o.getD i none).isSome ∧ (d.h.getD i none).isSome ∧
      (d.l.getD i none).isSome ∧ (d.c.getD i none).isSome) := by
  simp only [fetchMarketDataFromFinnhub] at hok
  split at hok
  · simp at hok
  split at hok
  · simp at hok
  split at hok
  · simp at hok
  split at hok
  next e heq => simp at hok
  next rows heq =>
    have hlen : rows.length = d.t.length := by
      have h := finnhubRowsGo_ok_length heq
      simpa using h
    have hforall := finnhubRowsGo_ok_forall heq
    simp only [Except.ok.injEq] at hok
    refine ⟨?_, ?_, ?_⟩
    · rw [← hok]; simp [hlen]
    · rw [← hok]; simp [hlen]
    · intro i hi
      obtain ⟨x, hx⟩ := hforall i (List.mem_range.mpr hi)
      exact finnhubRowE_ok_isSome hx

/-- A Finnhub payload with a null close in its single row. -/
def exampleFinnhubNullClose : FinnhubCandles :=
  { s := "ok", t := [86400], o := [some 10], h := [some 11], l := [some 9],
    c := [none], v := [some 100] }

/-- Counterexample for C10 as stated: a fallback payload with a null close is
not passed through to the output — the fetch throws the `toFixed` TypeError
instead of succeeding. -/
theorem finnhub_null_row_not_passed_through :
    (fetchMarketDataFromFinnhub FINNHUB_API_KEY "AAPL" "Daily"
      (.ok exampleFinnhubNullClose)).1 = .error nullToFixedError := by rfl

/-- A fully valid two-row Finnhub payload (second volume null). -/
def exampleFinnhubOk : FinnhubCandles :=
  { s := "ok", t := [86400, 172800], o := [some 10, some 11],
    h := [some 11, some 12], l := [some 9, some 10],
    c := [some (mkRat 21 2), some (mkRat 23 2)], v := [some 100, none] }

/-- The payload the model computes for `exampleFinnhubOk`. -/
def exampleFinnhubPayload : MarketDataPayload :=
  { csv := "Date,Open,High,Low,Close,Volume\n1970-01-02,10.00,11.00,9.00,10.50,100\n1970-01-03,11.00,12.00,10.00,11.50,0"
    chartData :=
      { candlestickData :=
          [⟨86400, 10, 11, 9, mkRat 21 2⟩, ⟨172800, 11, 12, 10, mkRat 23 2⟩]
        volumeData :=
          [⟨86400, 100, "rgba(40, 167, 69, 0.5)"⟩,
           ⟨172800, 0, "rgba(40, 167, 69, 0.5)"⟩] } }

theorem except_ok_of_toOption {ε α : Type} {e : Except ε α} {x : α}
    (h : e.toOption = some x) : e = .ok x := by
  cases e <;> simp_all [Except.toOption]

/-- Witness for the amended C10 at a concrete successful fetch: two upstream
timestamps yield exactly two candles and two volume points. -/
theorem finnhub_no_filtering_witness :
    exampleFinnhubPayload.chartData.candlestickData.length
        = exampleFinnhubOk.t.length ∧
    exampleFinnhubPayload.chartData.volumeData.length
        = exampleFinnhubOk.t.length ∧
    exampleFinnhubOk.t.length = 2 :=
  have h := finnhub_no_filtering FINNHUB_API_KEY "AAPL" "Daily" exampleFinnhubOk
    exampleFinnhubPayload (except_ok_of_toOption (by decide))
  ⟨h.1, h.2.1, rfl⟩

/-- Counterexample for C4 as stated: for a `.NS` symbol the quote operation
`fetchLivePriceFromFinnhub` does not fail with an UnsupportedAsset error — it
succeeds with the no-quote result (null), though indeed without a network
call. -/
theorem ns_quote_returns_null_counterexample :
    fetchLivePriceFromFinnhub FINNHUB_API_KEY "TCS.NS" (.ok (some 100))
      = (Except.ok none, 0) := by rfl

/-- C4 (amended): for every symbol ending in `.NS`, neither SecondaryProvider
operation attempts the network call (the call count stays 0): the series
operation fails immediately with the unsupported-asset error (whenever the
credential is configured, as the hard-coded module credential is), while the
quote operation returns the no-quote result (null) instead of an error,
regardless of the credential. -/
theorem ns_exclusion_no_network (apiKey symbol timeframe : String)
    (hkey : apiKey ≠ "") (hns : strEndsWith symbol ".NS" = true) :
    (∀ inp : FinnhubSeriesIn,
      fetchMarketDataFromFinnhub apiKey symbol timeframe inp
        = (.error indianStockMsg, 0)) ∧
    (∀ (key' : String) (inp : FinnhubQuoteIn),
      fetchLivePriceFromFinnhub key' symbol inp = (.ok none, 0)) := by
  constructor
  · intro inp
    simp [fetchMarketDataFromFinnhub, hkey, hns]
  · intro key' inp
    by_cases hk : key' = "" <;> simp [fetchLivePriceFromFinnhub, hk, hns]

/-- Witness for the amended C4 on the concrete symbol `TCS.NS`: no network
call is counted and the documented results are produced. -/
theorem ns_exclusion_no_network_witness :
    fetchMarketDataFromFinnhub FINNHUB_API_KEY "TCS.NS" "Daily" (.netFail "boom")
        = (.error indianStockMsg, 0) ∧
    fetchLivePriceFromFinnhub "" "TCS.NS" (.httpError 500) = (.ok none, 0) :=
  have h := ns_exclusion_no_network FINNHUB_API_KEY "TCS.NS" "Daily"
    (by decide) (by decide)
  ⟨h.1 _, h.2 "" _⟩

/-- C6: for every successful series fetch — from either provider — on
well-formed ascending upstream data, the candle times are strictly ascending
and the volume-point sequence has the same length as the candle sequence with
identical time values element-for-element. -/
theorem series_ascending_and_volume_aligned :
    (∀ (symbol timeframe : String) (r : YahooResult)
        (payload : MarketDataPayload),
      fetchMarketDataFromYahoo symbol timeframe (.ok r) = .ok payload →
      List.Pairwise (· < ·) (r.timestamp.filterMap id) →
      List.Pairwise (· < ·)
          (payload.chartData.candlestickData.map CandlestickData.time) ∧
      payload.chartData.volumeData.length
          = payload.chartData.candlestickData.length ∧
      payload.chartData.volumeData.map VolumeData.time
          = payload.chartData.candlestickData.map CandlestickData.time) ∧
    (∀ (apiKey symbol timeframe : String) (d : FinnhubCandles)
        (payload : MarketDataPayload),
      (fetchMarketDataFromFinnhub apiKey symbol timeframe (.ok d)).1
          = .ok payload →
      List.Pairwise (· < ·) d.t →
      List.Pairwise (· < ·)
          (payload.chartData.candlestickData.map CandlestickData.time) ∧
      payload.chartData.volumeData.length
          = payload.chartData.candlestickData.length ∧
      payload.chartData.volumeData.map VolumeData.time
          = payload.chartData.candlestickData.map CandlestickData.time) := by
  constructor
  · intro symbol timeframe r payload hok hasc
    simp only [fetchMarketDataFromYahoo, Except.ok.injEq] at hok
    have hct : payload.chartData.candlestickData.map CandlestickData.time
        = (yahooRows r).map YahooRow.time := by
      rw [← hok]; simp only [List.map_map]; rfl
    have hvt : payload.chartData.volumeData.map VolumeData.time
        = (yahooRows r).map YahooRow.time := by
      rw [← hok]; simp only [List.map_map]; rfl
    refine ⟨?_, ?_, ?_⟩
    · rw [hct]
      exact hasc.sublist (yahooRows_time_sublist r)
    · rw [← hok]; simp
    · rw [hct, hvt]
  · intro apiKey symbol timeframe d payload hok hasc
    simp only [fetchMarketDataFromFinnhub] at hok
    split at hok
    · simp at hok
    split at hok
    · simp at hok
    split at hok
    · simp at hok
    split at hok
    next e heq => simp at hok
    next rows heq =>
      simp only [Except.ok.injEq] at hok
      obtain ⟨ht1, ht2⟩ := finnhubRowsGo_ok_times heq
      rw [map_getD_range] at ht1 ht2
      have hct : payload.chartData.candlestickData.map CandlestickData.time
          = d.t := by
        rw [← hok]
        simpa [List.map_map] using ht1
      have hvt : payload.chartData.volumeData.map VolumeData.time = d.t := by
        rw [← hok]
        simpa [List.map_map] using ht2
      refine ⟨?_, ?_, ?_⟩
      · rw [hct]; exact hasc
      · rw [← hok]; simp
      · rw [hct, hvt]

/-- Witness for C6 at a concrete fallback fetch: two ascending upstream
timestamps yield strictly ascending candle times and identical volume-point
times. -/
theorem series_ascending_and_volume_aligned_witness :
    List.Pairwise (· < ·)
        (exampleFinnhubPayload.chartData.candlestickData.map CandlestickData.time) ∧
    exampleFinnhubPayload.chartData.volumeData.map VolumeData.time
      = exampleFinnhubPayload.chartData.candlestickData.map CandlestickData.time :=
  have h := series_ascending_and_volume_aligned.2 FINNHUB_API_KEY "AAPL" "Daily"
    exampleFinnhubOk exampleFinnhubPayload (except_ok_of_toOption (by decide))
    (by decide)
  ⟨h.1, h.2.2⟩

/-! ## Orchestrators (`fetchLivePrice`, `fetchMarketData`) -/

/-- `fetchLivePrice` from geminiService.ts.  The result type
`Except String (Option String)` records whether the call can reject; the
nested try/catch of the source makes rejection impossible, which is exactly
what C2 states. -/
def fetchLivePrice (apiKey symbol : String) (yIn : YahooQuoteIn)
    (fIn : FinnhubQuoteIn) : Except String (Option String) :=
  if symbol = "" then .ok none
  else
    match fetchLivePriceFromYahoo symbol yIn with
    | .ok p => .ok (some p)
    | .error _ =>
        match (fetchLivePriceFromFinnhub apiKey symbol fIn).1 with
        | .ok q => .ok q
        | .error _ => .ok none

/-- C2: for every symbol, credential and combination of primary/secondary
quote outcomes, `fetchLivePrice` never rejects, and whenever both providers
fail the result is the no-quote value (null), produced only after the
fallback was also consulted. -/
theorem fetchLivePrice_never_throws (apiKey symbol : String)
    (yIn : YahooQuoteIn) (fIn : FinnhubQuoteIn) :
    (∃ r, fetchLivePrice apiKey symbol yIn fIn = .ok r) ∧
    (∀ ey ef, fetchLivePriceFromYahoo symbol yIn = .error ey →
      (fetchLivePriceFromFinnhub apiKey symbol fIn).1 = .error ef →
      fetchLivePrice apiKey symbol yIn fIn = .ok none) := by
  constructor
  · by_cases hs : symbol = ""
    · exact ⟨none, by simp [fetchLivePrice, hs]⟩
    · cases hy : fetchLivePriceFromYahoo symbol yIn with
      | ok p => exact ⟨some p, by simp [fetchLivePrice, hs, hy]⟩
      | error e =>
        cases hf : (fetchLivePriceFromFinnhub apiKey symbol fIn).1 with
        | ok q => exact ⟨q, by simp [fetchLivePrice, hs, hy, hf]⟩
        | error ef => exact ⟨none, by simp [fetchLivePrice, hs, hy, hf]⟩
  · intro ey ef hy hf
    by_cases hs : symbol = "" <;> simp [fetchLivePrice, hs, hy, hf]

/-- Witness for C2: a relay failure on the primary and a network failure on
the fallback yield the no-quote value, not a rejection. -/
theorem fetchLivePrice_never_throws_witness :
    fetchLivePrice FINNHUB_API_KEY "AAPL" (.relayFail "network down")
      (.netFail "refused") = .ok none :=
  (fetchLivePrice_never_throws FINNHUB_API_KEY "AAPL" (.relayFail "network down")
    (.netFail "refused")).2 "network down" "refused" rfl rfl

/-- A provider invocation, recorded in orchestration order. -/
inductive ProviderCall where
  | yahoo
  | finnhub
deriving Repr, DecidableEq, BEq

/-- The error `fetchMarketData` throws when the primary failed and the
Finnhub credential is empty (fallback unavailable). -/
def fallbackUnavailableMsg (symbol : String) : String :=
  "Failed to fetch market data for " ++ squote ++ symbol ++ squote
    ++ ". The symbol may be invalid or not supported by the data provider."

/-- The error `fetchMarketData` throws when both providers failed. -/
def allProvidersFailedMsg (symbol : String) : String :=
  "Failed to fetch market data for " ++ squote ++ symbol ++ squote
    ++ " from all providers. The symbol may be invalid or providers are down."

/-- `fetchMarketData` from geminiService.ts, with the list of provider
invocations it performs. -/
def fetchMarketData (apiKey symbol timeframe : String) (yIn : YahooSeriesIn)
    (fIn : FinnhubSeriesIn) :
    Except String MarketDataPayload × List ProviderCall :=
  match fetchMarketDataFromYahoo symbol timeframe yIn with
  | .ok payload => (.ok payload, [.yahoo])
  | .error _ =>
      if apiKey = "" then (.error (fallbackUnavailableMsg symbol), [.yahoo])
      else
        match (fetchMarketDataFromFinnhub apiKey symbol timeframe fIn).1 with
        | .ok payload => (.ok payload, [.yahoo, .finnhub])
        | .error _ => (.error (allProvidersFailedMsg symbol), [.yahoo, .finnhub])

/-- C3: the primary provider is always attempted first; on any primary
failure with a configured credential the secondary is invoked exactly once;
the terminal error arises only when the primary failed and the fallback is
unavailable or also failed; and when the primary fails but the secondary
succeeds, the secondary data is returned. -/
theorem fetchMarketData_fallback_policy (apiKey symbol timeframe : String)
    (yIn : YahooSeriesIn) (fIn : FinnhubSeriesIn) :
    ((fetchMarketData apiKey symbol timeframe yIn fIn).2.head? = some .yahoo) ∧
    (∀ p, fetchMarketDataFromYahoo symbol timeframe yIn = .ok p →
      fetchMarketData apiKey symbol timeframe yIn fIn = (.ok p, [.yahoo])) ∧
    (∀ e, fetchMarketDataFromYahoo symbol timeframe yIn = .error e →
      apiKey ≠ "" →
      (fetchMarketData apiKey symbol timeframe yIn fIn).2.count .finnhub = 1) ∧
    (∀ e, (fetchMarketData apiKey symbol timeframe yIn fIn).1 = .error e →
      (∃ ey, fetchMarketDataFromYahoo symbol timeframe yIn = .error ey) ∧
      (apiKey = "" ∨ ∃ ef,
        (fetchMarketDataFromFinnhub apiKey symbol timeframe fIn).1
          = .error ef)) ∧
    (∀ e p, fetchMarketDataFromYahoo symbol timeframe yIn = .error e →
      apiKey ≠ "" →
      (fetchMarketDataFromFinnhub apiKey symbol timeframe fIn).1 = .ok p →
      (fetchMarketData apiKey symbol timeframe yIn fIn).1 = .ok p) := by
  cases hy : fetchMarketDataFromYahoo symbol timeframe yIn with
  | ok p0 =>
    refine ⟨by simp [fetchMarketData, hy], ?_, ?_, ?_, ?_⟩
    · intro p hp
      cases hp
      simp [fetchMarketData, hy]
    · intro e he
      cases he
    · intro e he
      simp [fetchMarketData, hy] at he
    · intro e p he
      cases he
  | error e0 =>
    by_cases hk : apiKey = ""
    · refine ⟨by simp [fetchMarketData, hy, hk], ?_, ?_, ?_, ?_⟩
      · intro p hp; cases hp
      · intro e he hk'; exact absurd hk hk'
      · intro e he; exact ⟨⟨e0, rfl⟩, Or.inl hk⟩
      · intro e p he hk'; exact absurd hk hk'
    · cases hf : (fetchMarketDataFromFinnhub apiKey symbol timeframe fIn).1 with
      | ok q =>
        refine ⟨by simp [fetchMarketData, hy, hk, hf], ?_, ?_, ?_, ?_⟩
        · intro p hp; cases hp
        · intro e he hk'
          simp [fetchMarketData, hy, hk, hf]
          rfl
        · intro e he
          simp [fetchMarketData, hy, hk, hf] at he
        · intro e p he hk' hp
          cases hp
          simp [fetchMarketData, hy, hk, hf]
      | error ef =>
        refine ⟨by simp [fetchMarketData, hy, hk, hf], ?_, ?_, ?_, ?_⟩
        · intro p hp; cases hp
        · intro e he hk'
          simp [fetchMarketData, hy, hk, hf]
          rfl
        · intro e he
          exact ⟨⟨e0, rfl⟩, Or.inr ⟨ef, rfl⟩⟩
        · intro e p he hk' hp
          cases hp

/-- Witness for C3 at a concrete run: the primary relay fails, the credential
is configured, the secondary also fails — the secondary was invoked exactly
once and the primary was attempted first. -/
theorem fetchMarketData_fallback_policy_witness :
    ((fetchMarketData FINNHUB_API_KEY "AAPL" "Daily" (.relayFail "down")
        (.httpError 500)).2.head? = some .yahoo) ∧
    (fetchMarketData FINNHUB_API_KEY "AAPL" "Daily" (.relayFail "down")
        (.httpError 500)).2.count .finnhub = 1 :=
  have h := fetchMarketData_fallback_policy FINNHUB_API_KEY "AAPL" "Daily"
    (.relayFail "down") (.httpError 500)
  ⟨h.1, h.2.2.1 "down" rfl (by decide)⟩

theorem fallbackMsg_ne_allFailedMsg (symbol : String) :
    fallbackUnavailableMsg symbol ≠ allProvidersFailedMsg symbol := by
  intro heq
  have hlen := congrArg String.length heq
  simp only [fallbackUnavailableMsg, allProvidersFailedMsg,
    String.length_append] at hlen
  have hA : (". The symbol may be invalid or not supported by the data provider.").length = 66 := rfl
  have hB : (" from all providers. The symbol may be invalid or providers are down.").length = 69 := rfl
  rw [hA, hB] at hlen
  omega

/-- C8: when the primary provider fails and the secondary credential is not
configured, `fetchMarketData` throws the fallback-unavailable message without
invoking the secondary provider, and that message differs from the message
thrown when the secondary was attempted and also failed. -/
theorem fallback_unavailable_distinguished (symbol timeframe : String)
    (yIn : YahooSeriesIn) (fIn : FinnhubSeriesIn) (e : String)
    (hfail : fetchMarketDataFromYahoo symbol timeframe yIn = .error e) :
    fetchMarketData "" symbol timeframe yIn fIn
        = (.error (fallbackUnavailableMsg symbol), [.yahoo]) ∧
    (fetchMarketData "" symbol timeframe yIn fIn).2.count .finnhub = 0 ∧
    fallbackUnavailableMsg symbol ≠ allProvidersFailedMsg symbol := by
  have hres : fetchMarketData "" symbol timeframe yIn fIn
      = (.error (fallbackUnavailableMsg symbol), [.yahoo]) := by
    simp [fetchMarketData, hfail]
  refine ⟨hres, ?_, fallbackMsg_ne_allFailedMsg symbol⟩
  rw [hres]
  rfl

/-- Witness for C8 at a concrete run: without a credential, a failing primary
yields the fallback-unavailable error, the secondary is never invoked, and
the two terminal messages differ. -/
theorem fallback_unavailable_distinguished_witness :
    fetchMarketData "" "AAPL" "Daily" (.relayFail "down") (.httpError 500)
        = (.error (fallbackUnavailableMsg "AAPL"), [.yahoo]) ∧
    decide (fallbackUnavailableMsg "AAPL" = allProvidersFailedMsg "AAPL") = false :=
  have h := fallback_unavailable_distinguished "AAPL" "Daily"
    (.relayFail "down") (.httpError 500) "down" rfl
  ⟨h.1, decide_eq_false h.2.2⟩

/-! ## Timing of the polling loop (App.tsx)

`handleAnalysisRequest` registers `setInterval(async () => { const newPrice =
await fetchLivePrice(assetSymbol); ... }, 5000)`.  Per the host timer
semantics the callback fires every 5000 ms regardless of whether the previous
invocation's awaited network call has completed, and the callback body
contains no busy flag or other overlap guard, so the quote request started by
tick `i` is outstanding for however long the network takes. -/

/-- Start time (ms) of tick `i` of the 5000 ms interval (first fire after one
full delay). -/
def tickStart (i : Nat) : Nat := 5000 * (i + 1)

/-- Whether the quote request issued by tick `i` is still outstanding at time
`tm`, when the network call of tick `i` takes `duration i` milliseconds. -/
def requestInFlightAt (duration : Nat → Nat) (i : Nat) (tm : Nat) : Bool :=
  decide (tickStart i ≤ tm ∧ tm < tickStart i + duration i)

/-- Number of quote requests simultaneously outstanding at time `tm` among
the first `numTicks` ticks. -/
def inFlightCount (duration : Nat → Nat) (numTicks : Nat) (tm : Nat) : Nat :=
  ((List.range numTicks).filter (fun i => requestInFlightAt duration i tm)).length

/-- C9 (code violation): with a quote latency of 12 s per call — well below
the 30-second timeout of a single relay intermediary — the first two ticks'
requests are both outstanding at t = 12 s: the interval callback has no
overlap guard, so the monitor does not keep at most one quote request in
flight. -/
theorem polling_overlap_two_in_flight :
    inFlightCount (fun _ => 12000) 2 12000 = 2 ∧
    requestInFlightAt (fun _ => 12000) 0 12000 = true ∧
    requestInFlightAt (fun _ => 12000) 1 12000 = true := by decide
